import Mathlib

/-!
Verification of the SSNT/METE comparison library
(src/ssnt_mete_comp.py and src/ssnt_mete_comparison.py).

Real-valued numerics are modelled over the reals.  Scalar operations
that can fail numerically (logarithm of a non-positive number,
division by zero) are modelled as Option-valued operations, so that a
computation which would hit a domain error is `none`.
-/

open Real

/-- The ISD predicted by SSNT in its simplest form: an exponential
distribution with parameter d/g = N/E (class `ssnt_isd` of
ssnt_mete_comp.py).  The constructor stores `scale = 1/d_over_g`. -/
structure ssnt_isd where
  scale : ℝ

/-- Constructor of `ssnt_isd`: `self.scale = 1 / d_over_g`. -/
noncomputable def ssnt_isd.init (d_over_g : ℝ) : ssnt_isd :=
  ⟨1 / d_over_g⟩

/-- Method `cdf` of `ssnt_isd`, i.e. `scipy.stats.expon.cdf(x, scale)`:
the exponential cdf `1 - exp(-x/scale)` on the support `[0, ∞)`, and 0
below it. -/
noncomputable def ssnt_isd.cdf (s : ssnt_isd) (x : ℝ) : ℝ :=
  if x < 0 then 0 else 1 - exp (-(x / s.scale))

/-- Method `ppf` of `ssnt_isd`: `-scale * log(1 - q)`. -/
noncomputable def ssnt_isd.ppf (s : ssnt_isd) (q : ℝ) : ℝ :=
  -s.scale * log (1 - q)

/-- The individual-size distribution predicted by SSNT with diameter
lower-bounded at 1, applied to diameter transformed with power `alpha`
(class `ssnt_isd_bounded` of ssnt_mete_comparison.py). -/
structure ssnt_isd_bounded where
  alpha : ℝ
  par : ℝ

/-- Field `self.a = 1`, the lower bound of the support. -/
def ssnt_isd_bounded.a (_ : ssnt_isd_bounded) : ℝ := 1

/-- Method `pdf` of `ssnt_isd_bounded`:
`0` for `x < a`, else `par * alpha * exp(-par*(x**alpha - 1)) * x**(alpha-1)`. -/
noncomputable def ssnt_isd_bounded.pdf (d : ssnt_isd_bounded) (x : ℝ) : ℝ :=
  if x < d.a then 0
  else d.par * d.alpha * exp (-d.par * (x ^ d.alpha - 1)) * x ^ (d.alpha - 1)

/-- Method `cdf` of `ssnt_isd_bounded`:
`0` for `x < a`, else `1 - exp(-par*(x**alpha - 1))`. -/
noncomputable def ssnt_isd_bounded.cdf (d : ssnt_isd_bounded) (x : ℝ) : ℝ :=
  if x < d.a then 0 else 1 - exp (-d.par * (x ^ d.alpha - 1))

/-- Method `ppf` of `ssnt_isd_bounded`:
`(1 - log(1 - q)/par) ** (1/alpha)`. -/
noncomputable def ssnt_isd_bounded.ppf (d : ssnt_isd_bounded) (q : ℝ) : ℝ :=
  (1 - log (1 - q) / d.par) ^ (1 / d.alpha)

/-- The pdf of the bounded truncated exponential ISD as written in the
specification (stated with the `x ≥ 1` case first). -/
noncomputable def ssnt_isd_bounded_pdf_spec (alpha par x : ℝ) : ℝ :=
  if 1 ≤ x then par * alpha * exp (-par * (x ^ alpha - 1)) * x ^ (alpha - 1) else 0

/-- The cdf of the bounded truncated exponential ISD as written in the
specification. -/
noncomputable def ssnt_isd_bounded_cdf_spec (alpha par x : ℝ) : ℝ :=
  if 1 ≤ x then 1 - exp (-par * (x ^ alpha - 1)) else 0

/-- The closed-form MLE of the SSNT ISD parameter as computed in
`get_obs_pred_isd`: `par = N / (sum(dbh_scaled ** alpha) - N)` where
`N` is the number of individuals, i.e. the length of the list of
scaled diameters. -/
noncomputable def fit_par (alpha : ℝ) (dbh_scaled : List ℝ) : ℝ :=
  (dbh_scaled.length : ℝ) /
    ((dbh_scaled.map (fun d => d ^ alpha)).sum - (dbh_scaled.length : ℝ))

/-- Claim C1: for every `d_over_g > 0` and `q` in `(0,1)`,
`ssnt_isd(d_over_g).cdf(ssnt_isd(d_over_g).ppf(q)) = q`, and for every
`alpha > 0`, `par > 0`, `ssnt_isd_bounded(alpha, par).cdf(ppf(q)) = q`
(exact round-trip identity, hence within any tolerance such as 1e-9). -/
theorem C1_roundtrip_cdf_ppf (d_over_g alpha par q : ℝ)
    (hd : 0 < d_over_g) (ha : 0 < alpha) (hp : 0 < par)
    (hq0 : 0 < q) (hq1 : q < 1) :
    (ssnt_isd.init d_over_g).cdf ((ssnt_isd.init d_over_g).ppf q) = q ∧
    (ssnt_isd_bounded.mk alpha par).cdf ((ssnt_isd_bounded.mk alpha par).ppf q) = q := by
  have h1q : 0 < 1 - q := by linarith
  have hlog : log (1 - q) < 0 := log_neg h1q (by linarith)
  constructor
  · have hscale : (ssnt_isd.init d_over_g).scale = 1 / d_over_g := rfl
    have hspos : (0 : ℝ) < 1 / d_over_g := by positivity
    have hppf : 0 < (ssnt_isd.init d_over_g).ppf q := by
      rw [ssnt_isd.ppf, hscale]
      nlinarith
    rw [ssnt_isd.cdf, if_neg (not_lt.mpr hppf.le), ssnt_isd.ppf, hscale]
    have hne : (1 : ℝ) / d_over_g ≠ 0 := ne_of_gt hspos
    rw [show -(1 / d_over_g) * log (1 - q) / (1 / d_over_g) = -log (1 - q) by
      field_simp]
    rw [neg_neg, exp_log h1q]
    ring
  · set t : ℝ := 1 - log (1 - q) / par with ht_def
    have ht1 : 1 < t := by
      rw [ht_def]
      have : log (1 - q) / par < 0 := div_neg_of_neg_of_pos hlog hp
      linarith
    have ht0 : (0 : ℝ) < t := by linarith
    have hppf : (ssnt_isd_bounded.mk alpha par).ppf q = t ^ (1 / alpha) := rfl
    have hppf1 : 1 ≤ (ssnt_isd_bounded.mk alpha par).ppf q := by
      rw [hppf]
      exact one_le_rpow ht1.le (by positivity)
    have ha' : (ssnt_isd_bounded.mk alpha par).a = 1 := rfl
    rw [ssnt_isd_bounded.cdf, ha', if_neg (not_lt.mpr hppf1), hppf]
    have hpow : (t ^ (1 / alpha)) ^ alpha = t := by
      rw [← Real.rpow_mul ht0.le, one_div_mul_cancel (ne_of_gt ha), rpow_one]
    show 1 - exp (-par * ((t ^ (1 / alpha)) ^ alpha - 1)) = q
    rw [hpow]
    have : -par * (t - 1) = log (1 - q) := by
      rw [ht_def]
      field_simp
    rw [this, exp_log h1q]
    ring

/-- Witness for C1 at `d_over_g = 2`, `alpha = 3`, `par = 5`, `q = 1/2`. -/
theorem C1_roundtrip_cdf_ppf_witness :
    (0 : ℝ) < 2 ∧ (0 : ℝ) < 3 ∧ (0 : ℝ) < 5 ∧ (0 : ℝ) < 1/2 ∧ (1 : ℝ)/2 < 1 ∧
    ((ssnt_isd.init 2).cdf ((ssnt_isd.init 2).ppf (1/2)) = 1/2 ∧
     (ssnt_isd_bounded.mk 3 5).cdf ((ssnt_isd_bounded.mk 3 5).ppf (1/2)) = 1/2) :=
  ⟨by norm_num, by norm_num, by norm_num, by norm_num, by norm_num,
   C1_roundtrip_cdf_ppf 2 3 5 (1/2) (by norm_num) (by norm_num) (by norm_num)
     (by norm_num) (by norm_num)⟩

/-- Claim C2: `ssnt_isd_bounded(alpha, par).pdf` and `.cdf` agree with
the closed-form specification formulas everywhere, and for `alpha = 1`
the pdf on `x ≥ 1` is the plain shifted exponential density
`par * exp(-par*(x-1))`. -/
theorem C2_pdf_cdf_formulas (alpha par x : ℝ) (ha : 0 < alpha) (hp : 0 < par) :
    (ssnt_isd_bounded.mk alpha par).pdf x = ssnt_isd_bounded_pdf_spec alpha par x ∧
    (ssnt_isd_bounded.mk alpha par).cdf x = ssnt_isd_bounded_cdf_spec alpha par x ∧
    (1 ≤ x → (ssnt_isd_bounded.mk 1 par).pdf x = par * exp (-par * (x - 1))) := by
  have ha' : (ssnt_isd_bounded.mk alpha par).a = 1 := rfl
  have ha1 : (ssnt_isd_bounded.mk 1 par).a = 1 := rfl
  refine ⟨?_, ?_, ?_⟩
  · rw [ssnt_isd_bounded.pdf, ssnt_isd_bounded_pdf_spec, ha']
    rcases lt_or_le x 1 with h | h
    · rw [if_pos h, if_neg (not_le.mpr h)]
    · rw [if_neg (not_lt.mpr h), if_pos h]
  · rw [ssnt_isd_bounded.cdf, ssnt_isd_bounded_cdf_spec, ha']
    rcases lt_or_le x 1 with h | h
    · rw [if_pos h, if_neg (not_le.mpr h)]
    · rw [if_neg (not_lt.mpr h), if_pos h]
  · intro hx
    rw [ssnt_isd_bounded.pdf, ha1, if_neg (not_lt.mpr hx)]
    show par * 1 * exp (-par * (x ^ (1:ℝ) - 1)) * x ^ ((1:ℝ) - 1) = _
    rw [rpow_one, sub_self, rpow_zero]
    ring

/-- Witness for C2 at `alpha = 2`, `par = 1`, `x = 3`. -/
theorem C2_pdf_cdf_formulas_witness :
    (0 : ℝ) < 2 ∧ (0 : ℝ) < 1 ∧
    ((ssnt_isd_bounded.mk 2 1).pdf 3 = ssnt_isd_bounded_pdf_spec 2 1 3 ∧
     (ssnt_isd_bounded.mk 2 1).cdf 3 = ssnt_isd_bounded_cdf_spec 2 1 3 ∧
     (1 ≤ (3:ℝ) → (ssnt_isd_bounded.mk 1 1).pdf 3 = 1 * exp (-1 * ((3:ℝ) - 1)))) :=
  ⟨by norm_num, by norm_num,
   C2_pdf_cdf_formulas 2 1 3 (by norm_num) (by norm_num)⟩

/-- Claim C3: for a site with `N = 50` individuals whose scaled
diameters sum to 80 under `alpha = 1`, the fitted parameter is
`par = 50/30`, and `ssnt_isd_bounded(1, 50/30).ppf(1/2)` equals
`1 - log(1/2)/(50/30)`, which is within `0.001` of `1.4158`. -/
theorem C3_mle_par_and_ppf (dbh : List ℝ)
    (hlen : dbh.length = 50) (hsum : dbh.sum = 80) :
    fit_par 1 dbh = 50 / 30 ∧
    (ssnt_isd_bounded.mk 1 (fit_par 1 dbh)).ppf (1/2) = 1 - log (1/2) / (50/30) ∧
    |(1 - log (1/2) / (50/30)) - 1.4158| < 0.001 := by
  have hmap : dbh.map (fun d => d ^ (1:ℝ)) = dbh := by
    simp [Real.rpow_one]
  have hfit : fit_par 1 dbh = 50 / 30 := by
    rw [fit_par, hmap, hlen, hsum]
    norm_num
  refine ⟨hfit, ?_, ?_⟩
  · rw [hfit, ssnt_isd_bounded.ppf]
    show (1 - log (1 - 1/2) / (50/30)) ^ (1 / (1:ℝ)) = _
    norm_num [rpow_one]
  · have hlh : Real.log (1/2) = -Real.log 2 := by
      rw [one_div, Real.log_inv]
    rw [hlh]
    have h1 := Real.log_two_gt_d9
    have h2 := Real.log_two_lt_d9
    rw [abs_sub_lt_iff]
    constructor <;> nlinarith

/-- Witness for C3: a list of 50 equal scaled diameters 8/5 has
length 50 and sum 80. -/
theorem C3_mle_par_and_ppf_witness :
    (List.replicate 50 (8/5 : ℝ)).length = 50 ∧
    (List.replicate 50 (8/5 : ℝ)).sum = 80 ∧
    (fit_par 1 (List.replicate 50 (8/5 : ℝ)) = 50 / 30 ∧
     (ssnt_isd_bounded.mk 1 (fit_par 1 (List.replicate 50 (8/5 : ℝ)))).ppf (1/2) =
       1 - log (1/2) / (50/30) ∧
     |(1 - log (1/2) / (50/30)) - 1.4158| < 0.001) :=
  ⟨by simp, by simp [List.sum_replicate]; norm_num,
   C3_mle_par_and_ppf (List.replicate 50 (8/5 : ℝ)) (by simp)
     (by simp [List.sum_replicate]; norm_num)⟩

/-- Option-valued logarithm: the log of a non-positive number is a
numeric domain error. -/
noncomputable def safeLog (x : ℝ) : Option ℝ :=
  if 0 < x then some (Real.log x) else none

/-- Option-valued division: a zero denominator is an error. -/
noncomputable def safeDiv (x y : ℝ) : Option ℝ :=
  if y = 0 then none else some (x / y)

/-- Sum of a list of Option-valued reals, failing if any entry fails. -/
noncomputable def optionSum : List (Option ℝ) → Option ℝ
  | [] => some 0
  | o :: rest => do
    let x ← o
    let s ← optionSum rest
    pure (x + s)

theorem safeLog_pos {x : ℝ} (h : 0 < x) : safeLog x = some (Real.log x) :=
  if_pos h

theorem safeDiv_ne {x y : ℝ} (h : y ≠ 0) : safeDiv x y = some (x / y) :=
  if_neg h

theorem optionSum_map_log (l : List ℝ) (h : ∀ x ∈ l, 0 < x) :
    optionSum (l.map safeLog) = some (l.map Real.log).sum := by
  induction l with
  | nil => simp [optionSum]
  | cons a t ih =>
    have ha : 0 < a := h a (List.mem_cons_self a t)
    have ht : ∀ x ∈ t, 0 < x := fun x hx => h x (List.mem_cons_of_mem a hx)
    simp [optionSum, safeLog_pos ha, ih ht]

/-- The log-likelihood branch of `lik_mete_sp` (ssnt_mete_comp.py):
joint likelihood in METE that a species has abundance `n` and total
size `epsilon`.  The external collaborators `mete.get_lambda2`,
`mete.get_beta` and `md.trunc_logser.pmf` are passed as function
arguments.  `n_list = range(1, n)` is the list `[1, ..., n-1]`. -/
noncomputable def lik_mete_sp (get_lambda2 : ℝ → ℝ → ℝ → ℝ) (get_beta : ℝ → ℝ → ℝ)
    (trunc_logser_pmf : ℕ → ℝ → ℝ → ℝ) (n : ℕ) (epsilon S N E : ℝ) : Option ℝ := do
  let lambda2 := get_lambda2 S N E
  let C ← safeDiv ((n : ℝ) * lambda2) (exp (-lambda2 * n) - exp (-lambda2 * n * E))
  let beta := get_beta S N
  let phi_n := trunc_logser_pmf n (exp (-beta)) N
  if (n : ℝ) = epsilon then
    let lC ← safeLog C
    let lphi ← safeLog phi_n
    pure ((n : ℝ) * lC - lambda2 * n * epsilon * n + lphi)
  else
    let lC ← safeLog C
    let lem ← safeLog (epsilon - n)
    let lsum ← optionSum (((List.range (n - 1)).map (fun k : ℕ => ((k : ℝ) + 1))).map safeLog)
    let lphi ← safeLog phi_n
    pure ((n : ℝ) * lC - lambda2 * n * epsilon + ((n : ℝ) - 1) * lem - lsum + lphi)

/-- The log-likelihood branch of `lik_ssnt_sp` (ssnt_mete_comp.py):
joint likelihood in the SSNT neutral model.  The collaborator
`mete.get_beta(S, N, version = untruncated)` is passed as a function
argument.  `n_list = range(1, n + 1)` is the list `[1, ..., n]`. -/
noncomputable def lik_ssnt_sp (get_beta_untruncated : ℝ → ℝ → ℝ)
    (n : ℕ) (epsilon S N E : ℝ) : Option ℝ := do
  let b_over_d ← safeDiv 1 (exp (get_beta_untruncated S N))
  let d_over_g ← safeDiv N E
  let b_over_g := b_over_d * d_over_g
  let l1 ← safeLog epsilon
  let l2 ← safeLog (b_over_g * epsilon)
  let lsum ← optionSum (((List.range n).map (fun k : ℕ => ((k : ℝ) + 1))).map safeLog)
  let linner ← safeLog (1 - b_over_d)
  let lfrac ← safeDiv (-1) linner
  let l3 ← safeLog lfrac
  pure (-l1 - d_over_g * epsilon + (n : ℝ) * l2 - lsum + l3)

/-- Helper: under in-range collaborator parameters, `lik_ssnt_sp`
evaluates without any domain error, for every abundance `n` and every
positive `epsilon` (the formula has no `epsilon - n` term). -/
theorem lik_ssnt_sp_isSome (get_beta_untruncated : ℝ → ℝ → ℝ)
    (n : ℕ) (epsilon S N E : ℝ)
    (hbeta : 0 < get_beta_untruncated S N) (hN : 0 < N) (hE : 0 < E)
    (heps : 0 < epsilon) :
    (lik_ssnt_sp get_beta_untruncated n epsilon S N E).isSome = true := by
  set beta := get_beta_untruncated S N with hbeta_def
  have hexp : Real.exp beta ≠ 0 := (Real.exp_pos beta).ne'
  have hexp1 : 1 < Real.exp beta := by
    rw [← Real.exp_zero]
    exact Real.exp_lt_exp.mpr hbeta
  have hb_pos : 0 < 1 / Real.exp beta := by positivity
  have hb_lt1 : 1 / Real.exp beta < 1 := by
    rw [div_lt_one (Real.exp_pos beta)]
    exact hexp1
  have hEne : E ≠ 0 := hE.ne'
  have hl2 : 0 < 1 / Real.exp beta * (N / E) * epsilon :=
    mul_pos (mul_pos hb_pos (div_pos hN hE)) heps
  have hinner_pos : 0 < 1 - 1 / Real.exp beta := by linarith
  have hinner_lt1 : 1 - 1 / Real.exp beta < 1 := by linarith
  have hlog_neg : Real.log (1 - 1 / Real.exp beta) < 0 :=
    Real.log_neg hinner_pos hinner_lt1
  have hlog_ne : Real.log (1 - 1 / Real.exp beta) ≠ 0 := hlog_neg.ne
  have hfrac : 0 < (-1) / Real.log (1 - 1 / Real.exp beta) :=
    div_pos_of_neg_of_neg (by norm_num) hlog_neg
  have hsum := optionSum_map_log ((List.range n).map (fun k : ℕ => ((k : ℝ) + 1)))
    (by
      intro x hx
      simp only [List.mem_map] at hx
      obtain ⟨k, _, rfl⟩ := hx
      positivity)
  rw [lik_ssnt_sp, safeDiv_ne hexp, safeDiv_ne hEne, safeLog_pos heps]
  simp only [bind, Option.bind]
  rw [safeLog_pos hl2, hsum, safeLog_pos hinner_pos]
  simp only [bind, Option.bind]
  rw [safeDiv_ne hlog_ne]
  simp only [bind, Option.bind]
  rw [safeLog_pos hfrac]
  rfl

/-- Claim C4: with `n == epsilon` (n a positive integer) and valid
state variables and collaborator parameters, both likelihood functions
evaluate without any division-by-zero or log-of-zero error;
`lik_mete_sp` returns exactly the explicit degenerate closed form, so
the singular `(epsilon - n)` logarithm is never evaluated. -/
theorem C4_degenerate_case_no_singularity
    (get_lambda2 : ℝ → ℝ → ℝ → ℝ) (get_beta : ℝ → ℝ → ℝ)
    (trunc_logser_pmf : ℕ → ℝ → ℝ → ℝ) (get_beta_untruncated : ℝ → ℝ → ℝ)
    (n : ℕ) (epsilon S N E : ℝ)
    (hn : 1 ≤ n) (hne : (n : ℝ) = epsilon) (hE : 1 < E)
    (hl2 : 0 < get_lambda2 S N E)
    (hphi : 0 < trunc_logser_pmf n (exp (-get_beta S N)) N)
    (hbeta : 0 < get_beta_untruncated S N) (hN : 0 < N) :
    lik_mete_sp get_lambda2 get_beta trunc_logser_pmf n epsilon S N E =
      some ((n : ℝ) * Real.log ((n : ℝ) * get_lambda2 S N E /
              (exp (-get_lambda2 S N E * n) - exp (-get_lambda2 S N E * n * E)))
            - get_lambda2 S N E * n * epsilon * n
            + Real.log (trunc_logser_pmf n (exp (-get_beta S N)) N)) ∧
    (lik_ssnt_sp get_beta_untruncated n epsilon S N E).isSome = true := by
  subst hne
  have hn1 : (1:ℝ) ≤ (n:ℝ) := by exact_mod_cast hn
  constructor
  · have hprod : 0 < get_lambda2 S N E * (n:ℝ) * (E - 1) :=
      mul_pos (mul_pos hl2 (by linarith)) (by linarith)
    have hdenom : 0 < exp (-get_lambda2 S N E * n) - exp (-get_lambda2 S N E * n * E) := by
      have h1 : -get_lambda2 S N E * (n:ℝ) * E < -get_lambda2 S N E * (n:ℝ) := by
        nlinarith [hprod]
      have h2 := Real.exp_lt_exp.mpr h1
      linarith
    have hC : 0 < (n:ℝ) * get_lambda2 S N E /
        (exp (-get_lambda2 S N E * n) - exp (-get_lambda2 S N E * n * E)) :=
      div_pos (by nlinarith) hdenom
    rw [lik_mete_sp]
    simp only [bind, Option.bind]
    rw [safeDiv_ne hdenom.ne']
    simp only [bind, Option.bind, if_true]
    rw [safeLog_pos hC, safeLog_pos hphi]
    rfl
  · exact lik_ssnt_sp_isSome get_beta_untruncated n (n:ℝ) S N E hbeta hN
      (by linarith) (by linarith)

/-- Witness for C4 at `n = 2`, `epsilon = 2`, `S = 5`, `N = 3`,
`E = 2`, with constant collaborator parameters `lambda2 = 1`,
`beta = 0`, `phi_n = 1`, untruncated `beta = 1`. -/
theorem C4_degenerate_case_no_singularity_witness :
    ((2:ℕ):ℝ) = (2:ℝ) ∧ (1:ℝ) < 2 ∧
    (lik_mete_sp (fun _ _ _ => 1) (fun _ _ => 0) (fun _ _ _ => 1) 2 2 5 3 2 =
      some (((2:ℕ):ℝ) * Real.log (((2:ℕ):ℝ) * 1 /
              (exp (-1 * ((2:ℕ):ℝ)) - exp (-1 * ((2:ℕ):ℝ) * 2)))
            - 1 * ((2:ℕ):ℝ) * 2 * ((2:ℕ):ℝ) + Real.log 1) ∧
     (lik_ssnt_sp (fun _ _ => 1) 2 2 5 3 2).isSome = true) :=
  ⟨by norm_num, by norm_num,
   C4_degenerate_case_no_singularity (fun _ _ _ => 1) (fun _ _ => 0)
     (fun _ _ _ => 1) (fun _ _ => 1) 2 2 5 3 2 (by norm_num) (by norm_num)
     (by norm_num) (by norm_num) (by norm_num) (by norm_num) (by norm_num)⟩

/-- Counterexample to claim C5: called with `epsilon = 1 < n = 2` (an
input violating the model precondition `epsilon ≥ n`), `lik_ssnt_sp`
does not report an invalid-input error: it returns a likelihood
value. -/
theorem C5_counterexample_returns_value_on_invalid :
    (1:ℝ) < ((2:ℕ):ℝ) ∧
    (lik_ssnt_sp (fun _ _ => 1) 2 1 5 3 2).isSome = true :=
  ⟨by norm_num,
   lik_ssnt_sp_isSome (fun _ _ => 1) 2 1 5 3 2 (by norm_num) (by norm_num)
     (by norm_num) (by norm_num)⟩

/-- Claim C5 amended: the likelihood functions perform no input
validation.  Even when `epsilon < n` (invalid by the model
precondition), `lik_ssnt_sp` reports no invalid-input error and
returns a likelihood value whenever its collaborator parameters are in
range. -/
theorem C5_amended_no_input_validation (get_beta_untruncated : ℝ → ℝ → ℝ)
    (n : ℕ) (epsilon S N E : ℝ)
    (hinvalid : epsilon < n)
    (hbeta : 0 < get_beta_untruncated S N) (hN : 0 < N) (hE : 0 < E)
    (heps : 0 < epsilon) :
    (lik_ssnt_sp get_beta_untruncated n epsilon S N E).isSome = true :=
  lik_ssnt_sp_isSome get_beta_untruncated n epsilon S N E hbeta hN hE heps

/-- Witness for the amended C5 at `epsilon = 1/2 < n = 3`. -/
theorem C5_amended_no_input_validation_witness :
    (1/2 : ℝ) < ((3:ℕ):ℝ) ∧ (0:ℝ) < 2 ∧ (0:ℝ) < 5 ∧ (0:ℝ) < 1/2 ∧
    (lik_ssnt_sp (fun _ _ => 2) 3 (1/2) 4 2 5).isSome = true :=
  ⟨by norm_num, by norm_num, by norm_num, by norm_num,
   C5_amended_no_input_validation (fun _ _ => 2) 3 (1/2) 4 2 5 (by norm_num)
     (by norm_num) (by norm_num) (by norm_num) (by norm_num)⟩

/-- A cleaned per-site record as produced by `clean_data_agsne`:
species label, genus label and the dbh measurement. -/
structure Record where
  sp : String
  genus : String
  dbh : ℝ

/-- Python's `min` over a list of reals (the empty case is junk;
`min` is only applied to nonempty data). -/
noncomputable def listMin : List ℝ → ℝ
  | [] => 0
  | x :: xs => xs.foldl min x

theorem foldl_min_le_init (xs : List ℝ) (a : ℝ) : xs.foldl min a ≤ a := by
  induction xs generalizing a with
  | nil => exact le_refl a
  | cons y ys ih =>
    calc (y :: ys).foldl min a = ys.foldl min (min a y) := rfl
    _ ≤ min a y := ih (min a y)
    _ ≤ a := min_le_left a y

theorem foldl_min_le_mem (xs : List ℝ) (a : ℝ) :
    ∀ x ∈ xs, xs.foldl min a ≤ x := by
  induction xs generalizing a with
  | nil => intro x hx; cases hx
  | cons y ys ih =>
    intro x hx
    rcases List.mem_cons.mp hx with h | h
    · subst h
      calc (x :: ys).foldl min a = ys.foldl min (min a x) := rfl
      _ ≤ min a x := foldl_min_le_init ys (min a x)
      _ ≤ x := min_le_right a x
    · exact ih (min a y) x h

theorem foldl_min_mem (xs : List ℝ) (a : ℝ) :
    xs.foldl min a = a ∨ xs.foldl min a ∈ xs := by
  induction xs generalizing a with
  | nil => exact Or.inl rfl
  | cons y ys ih =>
    rcases ih (min a y) with h | h
    · rcases min_choice a y with hm | hm
      · left
        calc (y :: ys).foldl min a = ys.foldl min (min a y) := rfl
        _ = min a y := h
        _ = a := hm
      · right
        apply List.mem_cons.mpr
        left
        calc (y :: ys).foldl min a = ys.foldl min (min a y) := rfl
        _ = min a y := h
        _ = y := hm
    · right
      exact List.mem_cons.mpr (Or.inr h)

theorem listMin_mem (l : List ℝ) (h : l ≠ []) : listMin l ∈ l := by
  match l with
  | [] => exact absurd rfl h
  | x :: xs =>
    rw [listMin]
    rcases foldl_min_mem xs x with h1 | h1
    · rw [h1]; exact List.mem_cons_self x xs
    · exact List.mem_cons.mpr (Or.inr h1)

theorem listMin_le (l : List ℝ) (x : ℝ) (hx : x ∈ l) : listMin l ≤ x := by
  match l with
  | x' :: xs =>
    rw [listMin]
    rcases List.mem_cons.mp hx with h | h
    · subst h; exact foldl_min_le_init xs x
    · exact foldl_min_le_mem xs x' x h

/-- `get_GSNE` (ssnt_mete_comparison.py): the state variables
`(G, S, N, E)` of a site, where `G` and `S` are the numbers of unique
genera and species, `N` is the number of records, and
`E = sum((dbh / min(dbh)) ** 2)`. -/
noncomputable def get_GSNE (recs : List Record) : ℕ × ℕ × ℕ × ℝ :=
  ((recs.map Record.genus).dedup.length,
   (recs.map Record.sp).dedup.length,
   recs.length,
   ((recs.map Record.dbh).map
     (fun d => (d / listMin (recs.map Record.dbh)) ^ 2)).sum)

theorem length_le_sum_of_one_le (l : List ℝ) (h : ∀ x ∈ l, 1 ≤ x) :
    (l.length : ℝ) ≤ l.sum := by
  induction l with
  | nil => simp
  | cons a t ih =>
    have ha : 1 ≤ a := h a (List.mem_cons_self a t)
    have ht := ih (fun x hx => h x (List.mem_cons_of_mem a hx))
    simp only [List.sum_cons, List.length_cons]
    push_cast
    linarith

theorem sum_eq_length_iff (l : List ℝ) (h : ∀ x ∈ l, 1 ≤ x) :
    l.sum = l.length ↔ ∀ x ∈ l, x = 1 := by
  induction l with
  | nil => simp
  | cons a t ih =>
    have ha : 1 ≤ a := h a (List.mem_cons_self a t)
    have htle := length_le_sum_of_one_le t (fun x hx => h x (List.mem_cons_of_mem a hx))
    have iht := ih (fun x hx => h x (List.mem_cons_of_mem a hx))
    simp only [List.sum_cons, List.length_cons]
    constructor
    · intro heq
      push_cast at heq
      have ha1 : a = 1 := by linarith
      have ht1 : t.sum = t.length := by linarith
      intro x hx
      rcases List.mem_cons.mp hx with h1 | h1
      · rw [h1, ha1]
      · exact (iht.mp ht1) x h1
    · intro hall
      have ha1 : a = 1 := hall a (List.mem_cons_self a t)
      have ht1 : t.sum = t.length :=
        iht.mpr (fun x hx => hall x (List.mem_cons_of_mem a hx))
      rw [ha1, ht1]
      push_cast
      ring

/-- Claim C9: for every nonempty record set with strictly positive dbh
values, `get_GSNE` returns `E ≥ N`, with equality exactly when all dbh
values are equal. -/
theorem C9_get_GSNE_E_ge_N (recs : List Record) (hne : recs ≠ [])
    (hpos : ∀ r ∈ recs, 0 < r.dbh) :
    ((get_GSNE recs).2.2.1 : ℝ) ≤ (get_GSNE recs).2.2.2 ∧
    ((get_GSNE recs).2.2.2 = ((get_GSNE recs).2.2.1 : ℝ) ↔
      ∀ r ∈ recs, ∀ s ∈ recs, r.dbh = s.dbh) := by
  have hdl_ne : recs.map Record.dbh ≠ [] := by
    intro h
    exact hne (List.map_eq_nil_iff.mp h)
  have hm_mem : listMin (recs.map Record.dbh) ∈ recs.map Record.dbh :=
    listMin_mem _ hdl_ne
  have hm_pos : 0 < listMin (recs.map Record.dbh) := by
    obtain ⟨r, hr, hrm⟩ := List.mem_map.mp hm_mem
    rw [← hrm]
    exact hpos r hr
  have hterm : ∀ x ∈ (recs.map Record.dbh).map
      (fun d => (d / listMin (recs.map Record.dbh)) ^ 2), 1 ≤ x := by
    intro x hx
    obtain ⟨d, hd, rfl⟩ := List.mem_map.mp hx
    have hle := listMin_le _ d hd
    have h1 : 1 ≤ d / listMin (recs.map Record.dbh) :=
      (one_le_div hm_pos).mpr hle
    nlinarith
  have hlen : ((recs.map Record.dbh).map
      (fun d => (d / listMin (recs.map Record.dbh)) ^ 2)).length = recs.length := by
    rw [List.length_map, List.length_map]
  constructor
  · have := length_le_sum_of_one_le _ hterm
    rw [hlen] at this
    exact this
  · have hiff := sum_eq_length_iff _ hterm
    rw [hlen] at hiff
    rw [show (get_GSNE recs).2.2.2 = ((recs.map Record.dbh).map
          (fun d => (d / listMin (recs.map Record.dbh)) ^ 2)).sum from rfl,
        show (get_GSNE recs).2.2.1 = recs.length from rfl]
    rw [hiff]
    constructor
    · intro hall r hr s hs
      have heqm : ∀ d ∈ recs.map Record.dbh, d = listMin (recs.map Record.dbh) := by
        intro d hd
        have h1 := hall _ (List.mem_map_of_mem _ hd)
        have hle := listMin_le _ d hd
        have hge : 1 ≤ d / listMin (recs.map Record.dbh) :=
          (one_le_div hm_pos).mpr hle
        have hone : d / listMin (recs.map Record.dbh) = 1 := by nlinarith
        field_simp at hone
        exact hone
      rw [heqm r.dbh (List.mem_map_of_mem Record.dbh hr),
          heqm s.dbh (List.mem_map_of_mem Record.dbh hs)]
    · intro hall x hx
      obtain ⟨d, hd, rfl⟩ := List.mem_map.mp hx
      obtain ⟨r, hr, hrd⟩ := List.mem_map.mp hd
      obtain ⟨r0, hr0, hr0m⟩ := List.mem_map.mp hm_mem
      rw [← hrd, ← hr0m, hall r hr r0 hr0, div_self]
      · norm_num
      · rw [hr0m]
        exact hm_pos.ne'

/-- Witness for C9 on a concrete two-record site. -/
theorem C9_get_GSNE_E_ge_N_witness :
    ([⟨"a", "A", 2⟩, ⟨"b", "B", 3⟩] : List Record) ≠ [] ∧
    (((get_GSNE [⟨"a", "A", 2⟩, ⟨"b", "B", 3⟩]).2.2.1 : ℝ) ≤
       (get_GSNE [⟨"a", "A", 2⟩, ⟨"b", "B", 3⟩]).2.2.2 ∧
     ((get_GSNE [⟨"a", "A", 2⟩, ⟨"b", "B", 3⟩]).2.2.2 =
        ((get_GSNE [⟨"a", "A", 2⟩, ⟨"b", "B", 3⟩]).2.2.1 : ℝ) ↔
       ∀ r ∈ ([⟨"a", "A", 2⟩, ⟨"b", "B", 3⟩] : List Record),
         ∀ s ∈ ([⟨"a", "A", 2⟩, ⟨"b", "B", 3⟩] : List Record), r.dbh = s.dbh)) :=
  ⟨by simp,
   C9_get_GSNE_E_ge_N [⟨"a", "A", 2⟩, ⟨"b", "B", 3⟩] (by simp)
     (by
       intro r hr
       rcases List.mem_cons.mp hr with h | h
       · rw [h]; norm_num
       · rcases List.mem_cons.mp h with h1 | h1
         · rw [h1]; norm_num
         · cases h1)⟩

/-- One bootstrap iteration of `bootstrap_ISD` for the SSNT models:
`cdf_boot = sorted(stats.uniform.rvs(size = S))`, where the uniform
draws are supplied by the stream `u` and `S` is the species count
returned by `get_GSNE`. -/
noncomputable def bootstrap_ISD_cdf_boot (recs : List Record) (u : ℕ → ℝ) : List ℝ :=
  ((List.range (get_GSNE recs).2.1).map u).mergeSort (fun a b => decide (a ≤ b))

/-- `obs_boot` of the same iteration:
`np.array([dist.ppf(x) for x in cdf_boot])`. -/
noncomputable def bootstrap_ISD_obs_boot (dist : ssnt_isd_bounded)
    (recs : List Record) (u : ℕ → ℝ) : List ℝ :=
  (bootstrap_ISD_cdf_boot recs u).map dist.ppf

/-- Claim C6 evaluated at a failing input: for a site with two species
and three individuals, the bootstrap ISD replicate drawn by the code
has length S = 2 (the species count from `get_GSNE`), not the observed
sample size N = 3 as the claim requires. -/
theorem C6_replicate_size_is_species_count :
    (bootstrap_ISD_obs_boot (ssnt_isd_bounded.mk 1 1)
        [⟨"a", "A", 1⟩, ⟨"a", "A", 2⟩, ⟨"b", "B", 3⟩] (fun _ => 1/2)).length =
      (get_GSNE [⟨"a", "A", 1⟩, ⟨"a", "A", 2⟩, ⟨"b", "B", 3⟩]).2.1 ∧
    (get_GSNE [⟨"a", "A", 1⟩, ⟨"a", "A", 2⟩, ⟨"b", "B", 3⟩]).2.1 = 2 ∧
    (get_GSNE [⟨"a", "A", 1⟩, ⟨"a", "A", 2⟩, ⟨"b", "B", 3⟩]).2.2.1 = 3 ∧
    (2 : ℕ) ≠ 3 := by
  refine ⟨?_, ?_, rfl, by decide⟩
  · rw [bootstrap_ISD_obs_boot, List.length_map, bootstrap_ISD_cdf_boot,
      (List.mergeSort_perm _ _).length_eq, List.length_map, List.length_range]
  · rfl

/-- The accumulation loop of `bootstrap_SAD`: starting from the
3-element header `[dat_name, site, observed statistic]` for each of
the R² row and the KS row, one bootstrap statistic is appended to each
row per iteration `i < Niter`; each finished row is then written in a
single `wk.write_to_file` call. -/
def bootstrap_SAD_out_lists (dat_name site r2_obs ks_obs : String) (Niter : ℕ)
    (r2_boot ks_boot : ℕ → String) : List String × List String :=
  (List.range Niter).foldl
    (fun acc i => (acc.1 ++ [r2_boot i], acc.2 ++ [ks_boot i]))
    ([dat_name, site, r2_obs], [dat_name, site, ks_obs])

/-- The accumulation loop of `bootstrap_ISD`: identical structure to
`bootstrap_SAD`, with the per-iteration statistics computed from the
inverse-cdf replicate. -/
def bootstrap_ISD_out_lists (dat_name site r2_obs ks_obs : String) (Niter : ℕ)
    (r2_boot ks_boot : ℕ → String) : List String × List String :=
  (List.range Niter).foldl
    (fun acc i => (acc.1 ++ [r2_boot i], acc.2 ++ [ks_boot i]))
    ([dat_name, site, r2_obs], [dat_name, site, ks_obs])

theorem foldl_append_pair (f g : ℕ → String) (n : ℕ) (i1 i2 : List String) :
    (List.range n).foldl (fun acc i => (acc.1 ++ [f i], acc.2 ++ [g i])) (i1, i2) =
      (i1 ++ (List.range n).map f, i2 ++ (List.range n).map g) := by
  induction n with
  | zero => simp
  | succ m ih =>
    rw [List.range_succ, List.foldl_append, ih]
    simp

/-- Claim C7: for every run, each of the two output rows of
`bootstrap_SAD` and of `bootstrap_ISD` consists of the dataset name,
the site, the observed statistic, followed by exactly the `Niter`
bootstrap statistics in order; hence each row has length `3 + Niter`
and is written together in a single append. -/
theorem C7_bootstrap_row_shape (dat_name site r2_obs ks_obs : String) (Niter : ℕ)
    (r2_boot ks_boot : ℕ → String) :
    bootstrap_SAD_out_lists dat_name site r2_obs ks_obs Niter r2_boot ks_boot =
      ([dat_name, site, r2_obs] ++ (List.range Niter).map r2_boot,
       [dat_name, site, ks_obs] ++ (List.range Niter).map ks_boot) ∧
    bootstrap_ISD_out_lists dat_name site r2_obs ks_obs Niter r2_boot ks_boot =
      ([dat_name, site, r2_obs] ++ (List.range Niter).map r2_boot,
       [dat_name, site, ks_obs] ++ (List.range Niter).map ks_boot) ∧
    (bootstrap_SAD_out_lists dat_name site r2_obs ks_obs Niter r2_boot ks_boot).1.length
      = 3 + Niter ∧
    (bootstrap_SAD_out_lists dat_name site r2_obs ks_obs Niter r2_boot ks_boot).2.length
      = 3 + Niter ∧
    (bootstrap_ISD_out_lists dat_name site r2_obs ks_obs Niter r2_boot ks_boot).1.length
      = 3 + Niter ∧
    (bootstrap_ISD_out_lists dat_name site r2_obs ks_obs Niter r2_boot ks_boot).2.length
      = 3 + Niter := by
  refine ⟨foldl_append_pair r2_boot ks_boot Niter _ _,
    foldl_append_pair r2_boot ks_boot Niter _ _, ?_, ?_, ?_, ?_⟩ <;>
    simp [bootstrap_SAD_out_lists, bootstrap_ISD_out_lists, foldl_append_pair,
      List.length_append] <;> omega

/-- Modelled from the spec: `AICc(LL, k, n) = -2·LL + 2k + 2k(k+1)/(n-k-1)`.
The function `mtools.AICc` is supplied by the external macroecotools
collaborator and is not part of this repository's source. -/
noncomputable def AICc (LL : ℝ) (k n : ℕ) : ℝ :=
  -2 * LL + 2 * k + 2 * k * (k + 1) / ((n : ℝ) - k - 1)

/-- The accumulation loop of `get_isd_lik_three_models`: summed log
density over all scaled diameters of a site. -/
noncomputable def lik_loop (f : ℝ → ℝ) (dbh_scaled : List ℝ) : ℝ :=
  dbh_scaled.foldl (fun acc dbh => acc + log (f dbh)) 0

/-- Per-site row written by `get_isd_lik_three_models` to
`isd_lik_three_models.txt`: the three community log-likelihoods
divided by `N0`.  `psi_pdf` is the external METE ISD density
`mete_distributions.psi_epsilon(S0, N0, E).pdf`, applied by the code
as `psi.pdf(dbh ** 2) * 2 * dbh`. -/
noncomputable def get_isd_lik_three_models_lik_row (psi_pdf : ℝ → ℝ)
    (dbh_scaled : List ℝ) : ℝ × ℝ × ℝ :=
  let N0 : ℕ := dbh_scaled.length
  let ssnt_isd_site := ssnt_isd_bounded.mk 1 ((N0 : ℝ) / (dbh_scaled.sum - (N0 : ℝ)))
  let ssnt_isd_transform_site := ssnt_isd_bounded.mk (2/3)
    ((N0 : ℝ) / ((dbh_scaled.map (fun d => d ^ ((2:ℝ)/3))).sum - (N0 : ℝ)))
  (lik_loop (fun dbh => psi_pdf (dbh ^ (2:ℕ)) * 2 * dbh) dbh_scaled / (N0 : ℝ),
   lik_loop ssnt_isd_site.pdf dbh_scaled / (N0 : ℝ),
   lik_loop ssnt_isd_transform_site.pdf dbh_scaled / (N0 : ℝ))

/-- Per-site row written by `get_isd_lik_three_models` to
`isd_aicc_three_models.txt`: AICc of each unnormalized community
log-likelihood, with 3 free parameters for METE, 2 for each SSNT
variant, and sample size `N0`. -/
noncomputable def get_isd_lik_three_models_aicc_row (psi_pdf : ℝ → ℝ)
    (dbh_scaled : List ℝ) : ℝ × ℝ × ℝ :=
  let N0 : ℕ := dbh_scaled.length
  let ssnt_isd_site := ssnt_isd_bounded.mk 1 ((N0 : ℝ) / (dbh_scaled.sum - (N0 : ℝ)))
  let ssnt_isd_transform_site := ssnt_isd_bounded.mk (2/3)
    ((N0 : ℝ) / ((dbh_scaled.map (fun d => d ^ ((2:ℝ)/3))).sum - (N0 : ℝ)))
  (AICc (lik_loop (fun dbh => psi_pdf (dbh ^ (2:ℕ)) * 2 * dbh) dbh_scaled) 3 N0,
   AICc (lik_loop ssnt_isd_site.pdf dbh_scaled) 2 N0,
   AICc (lik_loop ssnt_isd_transform_site.pdf dbh_scaled) 2 N0)

theorem foldl_add_log (f : ℝ → ℝ) (l : List ℝ) (a : ℝ) :
    l.foldl (fun acc d => acc + log (f d)) a = a + (l.map (fun d => log (f d))).sum := by
  induction l generalizing a with
  | nil => simp
  | cons x t ih =>
    simp only [List.foldl_cons, List.map_cons, List.sum_cons, ih]
    ring

/-- Claim C8: `get_isd_lik_three_models` writes, per qualifying site,
the community log-likelihood of each model standardized by the number
of individuals (the sum of per-individual log densities divided by
`N0`), and computes AICc with `k = 3` for METE, `k = 2` for each SSNT
variant, and sample size `n = N0`. -/
theorem C8_lik_standardized_and_aicc (psi_pdf : ℝ → ℝ) (dbh_scaled : List ℝ) :
    get_isd_lik_three_models_lik_row psi_pdf dbh_scaled =
      ((dbh_scaled.map (fun d => log (psi_pdf (d ^ (2:ℕ)) * 2 * d))).sum
         / (dbh_scaled.length : ℝ),
       (dbh_scaled.map (fun d => log ((ssnt_isd_bounded.mk 1
           ((dbh_scaled.length : ℝ) / (dbh_scaled.sum - (dbh_scaled.length : ℝ)))).pdf d))).sum
         / (dbh_scaled.length : ℝ),
       (dbh_scaled.map (fun d => log ((ssnt_isd_bounded.mk (2/3)
           ((dbh_scaled.length : ℝ) /
             ((dbh_scaled.map (fun e => e ^ ((2:ℝ)/3))).sum
               - (dbh_scaled.length : ℝ)))).pdf d))).sum
         / (dbh_scaled.length : ℝ)) ∧
    get_isd_lik_three_models_aicc_row psi_pdf dbh_scaled =
      (AICc (lik_loop (fun d => psi_pdf (d ^ (2:ℕ)) * 2 * d) dbh_scaled)
         3 dbh_scaled.length,
       AICc (lik_loop (ssnt_isd_bounded.mk 1
           ((dbh_scaled.length : ℝ) / (dbh_scaled.sum - (dbh_scaled.length : ℝ)))).pdf
           dbh_scaled) 2 dbh_scaled.length,
       AICc (lik_loop (ssnt_isd_bounded.mk (2/3)
           ((dbh_scaled.length : ℝ) /
             ((dbh_scaled.map (fun e => e ^ ((2:ℝ)/3))).sum
               - (dbh_scaled.length : ℝ)))).pdf dbh_scaled) 2 dbh_scaled.length) := by
  constructor
  · rw [get_isd_lik_three_models_lik_row]
    simp only [lik_loop, foldl_add_log, zero_add]
  · rfl

/-- Output path of the R² file written by `bootstrap_ISD`:
`out_dir + 'ISD_bootstrap_' + model + '_rsquare.txt'`. -/
def bootstrap_ISD_rsquare_path (out_dir model : String) : String :=
  out_dir ++ "ISD_bootstrap_" ++ model ++ "_rsquare.txt"

/-- Output path of the single `wk.write_to_file` call made by
`bootstrap_SDR`: also `out_dir + 'ISD_bootstrap_' + model + '_rsquare.txt'`. -/
def bootstrap_SDR_rsquare_path (out_dir model : String) : String :=
  out_dir ++ "ISD_bootstrap_" ++ model ++ "_rsquare.txt"

/-- The list of all file paths written by `bootstrap_SDR` (the
function makes exactly one write call). -/
def bootstrap_SDR_output_paths (out_dir model : String) : List String :=
  [bootstrap_SDR_rsquare_path out_dir model]

/-- Claim C10: for every model name, `bootstrap_SDR` writes its R²
result row to the identical path to which `bootstrap_ISD` appends its
R² rows, and produces no SDR-specific bootstrap output file. -/
theorem C10_sdr_writes_to_isd_rsquare_path (out_dir model : String) :
    bootstrap_SDR_rsquare_path out_dir model = bootstrap_ISD_rsquare_path out_dir model ∧
    bootstrap_SDR_output_paths out_dir model =
      [bootstrap_ISD_rsquare_path out_dir model] :=
  ⟨rfl, rfl⟩
